import Mathlib

/-!
Shallow embedding of the VDA5050 client core (topic codec, transport session
routing/lifecycle, client core disconnect path, AGV role client) together with
theorems settling the specification claims about it.

Python strings are modelled as `List Char`; `str.split("/")` as `splitSlash`;
a Python call that raises is modelled as `none` / `PyResult.exc`.
-/

abbrev Str := List Char

/-- Model of Python `topic.split("/")` on character lists: `""` splits to
`[""]`, and consecutive separators yield empty segments, exactly as in
Python. -/
def splitSlash : Str → List Str
  | [] => [[]]
  | c :: cs =>
    if c = '/' then [] :: splitSlash cs
    else
      match splitSlash cs with
      | [] => [[c]]
      | g :: gs => (c :: g) :: gs

/-- The six supported VDA5050 message types (`TopicManager.MESSAGE_TYPES`). -/
def MESSAGE_TYPES : List Str :=
  ["order".toList, "state".toList, "connection".toList,
   "factsheet".toList, "instantActions".toList, "visualization".toList]

/-- State of a `TopicManager` instance (`topic_manager.py`, `__init__`). -/
structure TopicManager where
  interface : Str
  major_version : Str
  manufacturer : Str
  serial_number : Str
deriving DecidableEq, Repr

/-- `TopicManager.__init__`: the major version is everything before the first
`.` of the version string (`version.split(".")[0]`). -/
def TopicManager.init (interface_name version manufacturer serial_number : Str) :
    TopicManager :=
  { interface := interface_name
  , major_version := version.takeWhile (fun c => c != '.')
  , manufacturer := manufacturer
  , serial_number := serial_number }

/-- `TopicManager._base_topic`: the f-string
`interface/v{major}/{manufacturer}/{serial}` as character-list concatenation. -/
def TopicManager.base_topic (tm : TopicManager) : Str :=
  tm.interface ++ ('/' :: 'v' ::
    (tm.major_version ++ ('/' :: (tm.manufacturer ++ ('/' :: tm.serial_number)))))

/-- `TopicManager.get_publish_topic`; the `ValueError` raised on an invalid
message type is modelled as `none`. -/
def TopicManager.get_publish_topic (tm : TopicManager) (message_type : Str) :
    Option Str :=
  if message_type ∈ MESSAGE_TYPES then
    some (tm.base_topic ++ ('/' :: message_type))
  else none

/-- Result dictionary of `TopicManager.parse_topic`. -/
structure ParsedTopic where
  interface : Str
  version : Str
  manufacturer : Str
  serialNumber : Str
  messageType : Str
deriving DecidableEq, Repr

/-- The version-tag check of `parse_topic`:
`version_tag.startswith("v") and version_tag[1:].isdigit()` (Python's
`"".isdigit()` is `False`, so the digits part must be nonempty). -/
def isVersionTag : Str → Bool
  | 'v' :: rest => !rest.isEmpty && rest.all Char.isDigit
  | _ => false

/-- `TopicManager.parse_topic`; each `raise ValueError` is modelled as `none`.
The checks appear in source order: segment count, interface, version tag,
message type. -/
def TopicManager.parse_topic (tm : TopicManager) (topic : Str) :
    Option ParsedTopic :=
  match splitSlash topic with
  | [i, version_tag, man, serial, msg_type] =>
    if i = tm.interface then
      if isVersionTag version_tag then
        if msg_type ∈ MESSAGE_TYPES then
          some { interface := i
               , version := version_tag.tail
               , manufacturer := man
               , serialNumber := serial
               , messageType := msg_type }
        else none
      else none
    else none
  | _ => none

/-- Connection states of the transport session (`mqtt_abstraction.py`). -/
inductive ConnectionState
  | DISCONNECTED
  | CONNECTING
  | CONNECTED
  | RECONNECTING
deriving DecidableEq, Repr

/-- Outcome of a Python call: a returned value or a raised exception. -/
inductive PyResult (α : Type)
  | ok (a : α)
  | exc (msg : String)
deriving DecidableEq, Repr

/-- `MQTTAbstraction.publish(topic, payload, qos)`. Control flow depends only
on the current connection state and on whether `info.wait_for_publish` returns
within its wait budget (`ackOk`); topic and payload are passed through to the
underlying client and do not affect the result, so they are omitted.
When the state is not `CONNECTED` the code executes
`raise RuntimeError("Not connected")`; otherwise an exception from
`wait_for_publish` is caught and the call returns `False`. -/
def MQTTAbstraction.publish (state : ConnectionState) (ackOk : Bool) :
    PyResult Bool :=
  if state ≠ ConnectionState.CONNECTED then PyResult.exc "Not connected"
  else if ackOk then PyResult.ok true
  else PyResult.ok false

/-- How one `MQTTAbstraction.connect` attempt can end: the executor call to
`self._client.connect` raises; `asyncio.wait_for(self._connection_event.wait(),
timeout)` raises `TimeoutError`; or the broker handshake completes and
`_on_connect` fires with `rc == 0`. -/
inductive ConnectPhase
  | transportRaises
  | waitTimesOut
  | handshakeOk
deriving DecidableEq, Repr

/-- Observable outcome of one `MQTTAbstraction.connect` call: the returned
value, the `_state` field afterwards, whether `_message_processor` was started
(`_running = True` and the task created), and whether `loop_start()` ran. -/
structure ConnectOutcome where
  ret : PyResult Bool
  finalState : ConnectionState
  processorStarted : Bool
  pahoLoopStarted : Bool
deriving DecidableEq, Repr

/-- `MQTTAbstraction.connect(timeout)`. If already `CONNECTED` it returns
`True` with no side effects. Otherwise it sets `_state = CONNECTING` and runs
the try block: an exception anywhere in the block is caught, logged, and the
call returns `False` — nothing resets `_state`, so it stays `CONNECTING`
(in the timeout case `loop_start()` has already run). Only on success are
`_running = True` set, the `_message_processor` task created, and the state
(set by `_on_connect`) equal to `CONNECTED`. -/
def MQTTAbstraction.connect (s0 : ConnectionState) (phase : ConnectPhase) :
    ConnectOutcome :=
  if s0 = ConnectionState.CONNECTED then
    { ret := PyResult.ok true, finalState := s0
    , processorStarted := false, pahoLoopStarted := false }
  else
    match phase with
    | ConnectPhase.transportRaises =>
      { ret := PyResult.ok false, finalState := ConnectionState.CONNECTING
      , processorStarted := false, pahoLoopStarted := false }
    | ConnectPhase.waitTimesOut =>
      { ret := PyResult.ok false, finalState := ConnectionState.CONNECTING
      , processorStarted := false, pahoLoopStarted := true }
    | ConnectPhase.handshakeOk =>
      { ret := PyResult.ok true, finalState := ConnectionState.CONNECTED
      , processorStarted := true, pahoLoopStarted := true }

/-- `MQTTAbstraction.disconnect()` always ends with
`self._state = ConnectionState.DISCONNECTED`, whatever the state was. -/
def MQTTAbstraction.disconnectState (_s : ConnectionState) : ConnectionState :=
  ConnectionState.DISCONNECTED

/-- Guard of the `while` loop in `MQTTAbstraction._reconnect`:
`while self._state != ConnectionState.CONNECTED`. -/
def reconnectGuard (s : ConnectionState) : Bool :=
  if s = ConnectionState.CONNECTED then false else true

/-- Backoff delay before the (k+1)-th reconnect attempt: `delay` starts at 1
and after each failed attempt becomes `min(delay * 2, 60)`. -/
def backoffDelay : Nat → Nat
  | 0 => 1
  | k + 1 => min (backoffDelay k * 2) 60

/-- One run of `MQTTAbstraction._reconnect` observed through the outcomes of
the successive `self.connect()` attempts (assuming no concurrent state change,
so the loop guard holds while attempts fail). Returns the list of waited
delays, in order, and whether the loop returned because an attempt
succeeded. An empty/exhausted outcome list means the loop is still running. -/
def reconnectGo : List Bool → Nat → List Nat × Bool
  | [], _ => ([], false)
  | o :: os, d =>
    if o then ([d], true)
    else
      let rest := reconnectGo os (min (d * 2) 60)
      (d :: rest.1, rest.2)

/-- `_reconnect` starts with `delay = 1`. -/
def reconnectRun (outcomes : List Bool) : List Nat × Bool :=
  reconnectGo outcomes 1

/-- Handler maps of the transport session: Python dicts modelled as ordered
association lists (insertion order preserved, as in Python 3.7+). Handlers
are identified by numeric ids. -/
abbrev HandlerMap := List (Str × Nat)

/-- Python dict assignment `m[k] = v`: replaces the value in place when the
key exists (keeping its position), otherwise appends at the end. -/
def dictInsert (m : HandlerMap) (k : Str) (v : Nat) : HandlerMap :=
  match m with
  | [] => [(k, v)]
  | (k', v') :: rest =>
    if k' = k then (k', v) :: rest else (k', v') :: dictInsert rest k v

/-- Python dict lookup `m[k]` / `k in m`. -/
def dictLookup (m : HandlerMap) (k : Str) : Option Nat :=
  match m with
  | [] => none
  | (k', v) :: rest => if k' = k then some v else dictLookup rest k

/-- The classification in `MQTTAbstraction.subscribe`:
`'+' in topic or '#' in topic`. -/
def isWildcardTopic (topic : Str) : Bool :=
  topic.contains '+' || topic.contains '#'

/-- The two handler maps of an `MQTTAbstraction` instance
(`self._handlers` and `self._wildcard_handlers`). -/
structure SubState where
  handlers : HandlerMap
  wildcard_handlers : HandlerMap
deriving DecidableEq, Repr

/-- Initial maps from `MQTTAbstraction.__init__`. -/
def SubState.empty : SubState := { handlers := [], wildcard_handlers := [] }

/-- `MQTTAbstraction.subscribe(topic, handler)` on the success path of the
underlying `client.subscribe` call: stores the handler under the wildcard map
when the topic contains `+` or `#`, else under the exact map. -/
def SubState.subscribe (st : SubState) (topic : Str) (h : Nat) : SubState :=
  if isWildcardTopic topic then
    { st with wildcard_handlers := dictInsert st.wildcard_handlers topic h }
  else
    { st with handlers := dictInsert st.handlers topic h }

/-- A sequence of `subscribe` calls, in registration order. -/
def subscribeList (st : SubState) : List (Str × Nat) → SubState
  | [] => st
  | r :: rs => subscribeList (st.subscribe r.1 r.2) rs

/-- All registrations applied to a fresh transport session. -/
def subscribeAll (regs : List (Str × Nat)) : SubState :=
  subscribeList SubState.empty regs

/-- Fuel-indexed matcher for the regex `_route` builds from a wildcard
pattern: `'^' + pattern.replace('+', '[^/]+').replace('#', '.*') + '$'`.
A literal pattern character must match itself, `+` matches one or more
non-`/` characters, `#` matches any remaining characters. Every recursive
call strictly decreases `pattern.length + topic.length`, so any fuel larger
than that sum makes the `0` case unreachable; `wcMatch` below supplies such
fuel. (The model assumes the pattern contains no other regex
metacharacters, true of all MQTT topics in this system.) -/
def wcMatchF : Nat → Str → Str → Bool
  | 0, _, _ => false
  | _ + 1, [], t => t.isEmpty
  | fuel + 1, p :: ps, t =>
    if p = '#' then
      wcMatchF fuel ps t ||
        (match t with
         | [] => false
         | _ :: t' => wcMatchF fuel (p :: ps) t')
    else if p = '+' then
      match t with
      | [] => false
      | c :: t' => decide (c ≠ '/') && (wcMatchF fuel ps t' || wcMatchF fuel (p :: ps) t')
    else
      match t with
      | [] => false
      | c :: t' => decide (c = p) && wcMatchF fuel ps t'

/-- The wildcard match used by `_route` on each stored pattern. -/
def wcMatch (pattern topic : Str) : Bool :=
  wcMatchF (pattern.length + topic.length + 1) pattern topic

/-- `MQTTAbstraction._route(topic, payload)`: if the topic is a key of the
exact map, that handler is awaited and the method returns; otherwise the
wildcard patterns are tried in dict (insertion) order and the first whose
regex matches is awaited, then the method returns. The result is the id of
the single handler invoked, or `none` when the message is dropped. -/
def SubState.route (st : SubState) (topic : Str) : Option Nat :=
  match dictLookup st.handlers topic with
  | some h => some h
  | none =>
    (st.wildcard_handlers.find? (fun pk => wcMatch pk.1 topic)).map Prod.snd

/-- What a handler does when awaited on a message. -/
inductive HandlerBehavior
  | ok
  | raises
deriving DecidableEq, Repr

/-- `MQTTAbstraction._message_processor` run over a queue of
`(topic, payload)` pairs with `self._running` true, observed until the queue
is drained. The loop body catches only `asyncio.TimeoutError` (from the
empty-queue poll); an exception raised by a routed handler propagates out of
`await self._route(...)` and terminates the coroutine. Returns the list of
queue entries the loop got through (messages with no matching handler are
dropped silently and the loop continues) and, if a handler raised, the entry
at which the loop died — every later entry is left unprocessed. -/
def messageProcessor (st : SubState) (beh : Nat → HandlerBehavior) :
    List (Str × Str) → List (Str × Str) × Option (Str × Str)
  | [] => ([], none)
  | (t, p) :: rest =>
    match st.route t with
    | none =>
      let r := messageProcessor st beh rest
      ((t, p) :: r.1, r.2)
    | some h =>
      match beh h with
      | HandlerBehavior.ok =>
        let r := messageProcessor st beh rest
        ((t, p) :: r.1, r.2)
      | HandlerBehavior.raises => ([], some (t, p))

/-- The per-handler wrapper `message_wrapper` installed by
`VDA5050BaseClient._setup_registered_handlers`: its body is one
`try ... except Exception as e: logger.error(...)`, so whatever the wrapped
handler (or validation) does, the wrapper itself returns normally. -/
def message_wrapper (_inner : HandlerBehavior) : HandlerBehavior :=
  HandlerBehavior.ok

/-- Client-core state relevant to `VDA5050BaseClient.disconnect`:
the `_connected` flag and whether `self.mqtt.disconnect()` has been awaited. -/
structure ClientState where
  connected : Bool
  transportDown : Bool
deriving DecidableEq, Repr

/-- The three statements inside the `try` block of
`VDA5050BaseClient.disconnect`: `await self._on_vda5050_disconnect()`,
`await self.mqtt.disconnect()`, `self._connected = False`. -/
inductive DStep
  | hook
  | teardown
  | clearFlag
deriving DecidableEq, Repr

/-- Effect of one statement; `hookRaises` says whether the role-specific
pre-disconnect hook raises when awaited. -/
def execStep (hookRaises : Bool) : DStep → ClientState → PyResult ClientState
  | DStep.hook, s =>
    if hookRaises then PyResult.exc "hook failed" else PyResult.ok s
  | DStep.teardown, s => PyResult.ok { s with transportDown := true }
  | DStep.clearFlag, s => PyResult.ok { s with connected := false }

/-- Sequential execution of the statements of a `try` block: stops at the
first raised exception, keeping the mutations made so far. -/
def execBody (hookRaises : Bool) :
    List DStep → ClientState → ClientState × Option String
  | [], s => (s, none)
  | st :: rest, s =>
    match execStep hookRaises st s with
    | PyResult.ok s' => execBody hookRaises rest s'
    | PyResult.exc m => (s, some m)

/-- `VDA5050BaseClient.disconnect()`: early return when `_connected` is
false; otherwise the hook, the transport teardown and the flag reset run in
one `try` block whose `except Exception` clause only logs, so an exception
anywhere skips the remaining statements and the method returns normally. -/
def baseDisconnect (hookRaises : Bool) (s : ClientState) : ClientState :=
  if !s.connected then s
  else (execBody hookRaises [DStep.hook, DStep.teardown, DStep.clearFlag] s).1

/-- Payload of a publish issued by the AGV client; contents are abstracted,
only the kind matters to the claims. -/
inductive MsgPayload
  | factsheet
  | connectionRaw (s : Str)
deriving DecidableEq, Repr

/-- One call to the transport session's publish, as issued by the AGV
client. `MQTTAbstraction.publish` has no `retain` parameter, and paho's
`Client.publish` defaults to `retain=False`, so every publish goes out with
the retain flag cleared. -/
structure PublishRecord where
  topic : Str
  payload : MsgPayload
  retain : Bool
deriving DecidableEq, Repr

/-- `TopicManager` built by `AGVClient.__init__` (`clients/agv.py`):
the call `super().__init__(broker_url, manufacturer, serial_number,
**kwargs)` passes its arguments positionally into
`VDA5050BaseClient.__init__(manufacturer, serial_number, broker_url, ...)`,
so the base class receives `manufacturer := broker_url` and
`serial_number := manufacturer` and hands those to
`TopicManager(interface_name="uagv", version="2.1.0", ...)`. -/
def AGVClient.topicManagerOf (broker_url manufacturer _serial_number : Str) :
    TopicManager :=
  TopicManager.init "uagv".toList "2.1.0".toList broker_url manufacturer

/-- `VDA5050BaseClient._publish_message(message_type, message)` with no
target given. Its first statement raises
`VDA5050Error("Not connected to VDA5050 system")` when the client-core
`_connected` flag is false; otherwise the topic comes from
`get_publish_topic(message_type)` and the payload is handed to
`MQTTAbstraction.publish(topic, payload)` — which has no retain parameter,
so paho's default `retain=False` applies. Payload serialization, schema
validation and broker acknowledgment are abstracted (taken to succeed); an
invalid message type surfaces as a `VDA5050Error` as well. Returns the
publish calls that reached the transport, or the raised error. -/
def VDA5050BaseClient.publish_message (tm : TopicManager) (connected : Bool)
    (message_type : Str) (payload : MsgPayload) :
    PyResult (List PublishRecord) :=
  if !connected then PyResult.exc "Not connected to VDA5050 system"
  else
    match tm.get_publish_topic message_type with
    | some t =>
      PyResult.ok [{ topic := t, payload := payload, retain := false }]
    | none => PyResult.exc "Invalid message type"

/-- `AGVClient.send_factsheet`: stores the factsheet, then calls
`_publish_message("factsheet", ...)`; a `VDA5050Error` is caught, logged,
and turned into a returned `False`, with nothing reaching the transport.
Result: the publish calls that reached the transport, and the returned
value. -/
def AGVClient.send_factsheet (tm : TopicManager) (connected : Bool) :
    List PublishRecord × Bool :=
  match VDA5050BaseClient.publish_message tm connected "factsheet".toList
      MsgPayload.factsheet with
  | PyResult.ok recs => (recs, true)
  | PyResult.exc _ => ([], false)

/-- Publishes caused by `AGVClient._on_vda5050_connect`. The hook is
awaited by `VDA5050BaseClient.connect` BEFORE `self._connected = True`
runs (base_client.py lines 86-88), so inside the hook `_connected` is
still false. The hook only calls `send_factsheet(self._factsheet)` inside
a try/except: `_publish_message` immediately raises
`VDA5050Error("Not connected to VDA5050 system")` (base_client.py lines
153-154), `send_factsheet` swallows it and returns `False`, and nothing
reaches the transport; when no factsheet was stored the `AttributeError`
is likewise caught. Either way the connect hook publishes nothing — in
particular no connection-state message. -/
def AGVClient.connectPublishes (tm : TopicManager) (hasFactsheet : Bool) :
    List PublishRecord :=
  if hasFactsheet then (AGVClient.send_factsheet tm false).1
  else []

/-- Publishes caused by the pre-disconnect hook during
`VDA5050BaseClient.disconnect` on an `AGVClient`: the class does not
override `_on_vda5050_disconnect`, and the base implementation is `pass`,
so nothing is published. -/
def AGVClient.disconnectPublishes (_tm : TopicManager) : List PublishRecord :=
  []

/-- Well-formedness of the transport session's handler maps: keys are unique
within each dict (Python dict invariant), the exact map only holds
non-wildcard topics and the wildcard map only wildcard topics (enforced by
the classification in `subscribe`). -/
def SubWF (st : SubState) : Prop :=
  (st.handlers.map Prod.fst).Nodup ∧
  (st.wildcard_handlers.map Prod.fst).Nodup ∧
  (∀ k ∈ st.handlers.map Prod.fst, isWildcardTopic k = false) ∧
  (∀ k ∈ st.wildcard_handlers.map Prod.fst, isWildcardTopic k = true)

/-- All handlers stored for a given topic string, across the exact and the
wildcard maps. -/
def handlersFor (st : SubState) (T : Str) : List Nat :=
  (st.handlers.filter (fun p => p.1 == T)).map Prod.snd ++
  (st.wildcard_handlers.filter (fun p => p.1 == T)).map Prod.snd

theorem splitSlash_no_slash (a : Str) (h : '/' ∉ a) : splitSlash a = [a] := by
  induction a with
  | nil => rfl
  | cons c cs ih =>
    have hc : c ≠ '/' := fun hc => h (hc ▸ List.mem_cons_self c cs)
    have hcs : '/' ∉ cs := fun hm => h (List.mem_cons_of_mem c hm)
    simp only [splitSlash, if_neg hc, ih hcs]

theorem splitSlash_append (a r : Str) (h : '/' ∉ a) :
    splitSlash (a ++ '/' :: r) = a :: splitSlash r := by
  induction a with
  | nil => simp [splitSlash]
  | cons c cs ih =>
    have hc : c ≠ '/' := fun hc => h (hc ▸ List.mem_cons_self c cs)
    have hcs : '/' ∉ cs := fun hm => h (List.mem_cons_of_mem c hm)
    simp only [List.cons_append, splitSlash, if_neg hc]
    rw [show cs.append ('/' :: r) = cs ++ '/' :: r from rfl, ih hcs]

theorem splitSlash_five (i a m s t : Str)
    (hi : '/' ∉ i) (ha : '/' ∉ a) (hm : '/' ∉ m) (hs : '/' ∉ s) (ht : '/' ∉ t) :
    splitSlash (i ++ '/' :: (a ++ '/' :: (m ++ '/' :: (s ++ '/' :: t)))) =
      [i, a, m, s, t] := by
  rw [splitSlash_append _ _ hi, splitSlash_append _ _ ha,
    splitSlash_append _ _ hm, splitSlash_append _ _ hs, splitSlash_no_slash _ ht]

theorem no_slash_of_all_digit (a : Str) (h : a.all Char.isDigit = true) :
    '/' ∉ a := by
  intro hm
  have := (List.all_eq_true.mp h) _ hm
  simp at this

theorem no_slash_of_message_type (mt : Str) (h : mt ∈ MESSAGE_TYPES) :
    '/' ∉ mt := by
  simp only [MESSAGE_TYPES, List.mem_cons, List.not_mem_nil, or_false] at h
  rcases h with rfl | rfl | rfl | rfl | rfl | rfl <;> decide

/-- C1 (counterexample): the round-trip fails for an identity whose
manufacturer contains a `/`. `get_publish_topic` happily embeds
`"a/b"` into the topic, making six `/`-separated segments, and
`parse_topic` then raises (`none`) instead of returning the identity's
manufacturer, serial number and message type — so the claim is false as
stated for arbitrary identities. -/
theorem C1_counterexample :
    (TopicManager.init "uagv".toList "2.1.0".toList "a/b".toList
        "s1".toList).get_publish_topic "order".toList =
      some "uagv/v2/a/b/s1/order".toList ∧
    (TopicManager.init "uagv".toList "2.1.0".toList "a/b".toList
        "s1".toList).parse_topic "uagv/v2/a/b/s1/order".toList = none := by
  constructor <;> decide

/-- C1 (amended): for every identity whose interface, manufacturer and
serial number contain no `/`, and whose version string has a nonempty
all-digit major part (everything before the first `.`), and every message
type among the six recognized types, `parse_topic` applied to the result of
`get_publish_topic` succeeds and returns that identity's manufacturer,
serial number and the given message type (together with the interface and
major version). -/
theorem C1_round_trip (iface ver man ser mt : Str)
    (hi : '/' ∉ iface) (hm : '/' ∉ man) (hs : '/' ∉ ser)
    (hmt : mt ∈ MESSAGE_TYPES)
    (hv1 : ver.takeWhile (fun c => c != '.') ≠ [])
    (hv2 : (ver.takeWhile (fun c => c != '.')).all Char.isDigit = true) :
    ((TopicManager.init iface ver man ser).get_publish_topic mt).bind
        (TopicManager.init iface ver man ser).parse_topic =
      some { interface := iface
           , version := ver.takeWhile (fun c => c != '.')
           , manufacturer := man
           , serialNumber := ser
           , messageType := mt } := by
  have hvm : '/' ∉ ver.takeWhile (fun c => c != '.') :=
    no_slash_of_all_digit _ hv2
  have htag : '/' ∉ ('v' :: ver.takeWhile (fun c => c != '.')) := by
    intro hmem
    rcases List.mem_cons.mp hmem with h | h
    · exact absurd h (by decide)
    · exact hvm h
  have hmtns : '/' ∉ mt := no_slash_of_message_type mt hmt
  have htopic :
      (TopicManager.init iface ver man ser).base_topic ++ ('/' :: mt) =
        iface ++ '/' :: (('v' :: ver.takeWhile (fun c => c != '.')) ++ '/' ::
          (man ++ '/' :: (ser ++ '/' :: mt))) := by
    simp [TopicManager.base_topic, TopicManager.init, List.append_assoc]
  simp only [TopicManager.get_publish_topic, if_pos hmt, Option.some_bind]
  rw [htopic]
  unfold TopicManager.parse_topic
  rw [splitSlash_five _ _ _ _ _ hi htag hm hs hmtns]
  simp [TopicManager.init, isVersionTag, hmt, hv1, hv2]

/-- C1 (witness): the amended round-trip at the concrete identity
(uagv, 2.1.0, RobotCo, A1) and message type order. -/
theorem C1_round_trip_witness :
    ('/' ∉ "uagv".toList) ∧ ('/' ∉ "RobotCo".toList) ∧ ('/' ∉ "A1".toList) ∧
    ("order".toList ∈ MESSAGE_TYPES) ∧
    ("2.1.0".toList.takeWhile (fun c => c != '.') ≠ []) ∧
    (("2.1.0".toList.takeWhile (fun c => c != '.')).all Char.isDigit = true) ∧
    ((TopicManager.init "uagv".toList "2.1.0".toList "RobotCo".toList
          "A1".toList).get_publish_topic "order".toList).bind
        (TopicManager.init "uagv".toList "2.1.0".toList "RobotCo".toList
          "A1".toList).parse_topic =
      some { interface := "uagv".toList
           , version := "2.1.0".toList.takeWhile (fun c => c != '.')
           , manufacturer := "RobotCo".toList
           , serialNumber := "A1".toList
           , messageType := "order".toList } :=
  ⟨by decide, by decide, by decide, by decide, by decide, by decide,
   C1_round_trip _ _ _ _ _ (by decide) (by decide) (by decide) (by decide)
     (by decide) (by decide)⟩

theorem dictLookup_eq_none (m : HandlerMap) (k : Str)
    (h : k ∉ m.map Prod.fst) : dictLookup m k = none := by
  induction m with
  | nil => rfl
  | cons p rest ih =>
    obtain ⟨k1, v1⟩ := p
    rw [List.map_cons, List.mem_cons, not_or] at h
    have hk : k1 ≠ k := fun he => h.1 he.symm
    simpa [dictLookup, hk] using ih h.2

theorem dictLookup_eq_of_mem (m : HandlerMap) (k : Str) (v : Nat)
    (hm : (k, v) ∈ m) (hnd : (m.map Prod.fst).Nodup) :
    dictLookup m k = some v := by
  induction m with
  | nil => cases hm
  | cons p rest ih =>
    obtain ⟨k1, v1⟩ := p
    rw [List.map_cons, List.nodup_cons] at hnd
    rcases List.mem_cons.mp hm with he | hr
    · have hk := congrArg Prod.fst he
      have hv := congrArg Prod.snd he
      simp only [] at hk hv
      simp [dictLookup, ← hk, ← hv]
    · have hkmem : k ∈ rest.map Prod.fst := List.mem_map.mpr ⟨(k, v), hr, rfl⟩
      have hk : k1 ≠ k := fun he2 => hnd.1 (he2 ▸ hkmem)
      simpa [dictLookup, hk] using ih hr hnd.2

theorem dictInsert_of_not_mem (m : HandlerMap) (k : Str) (v : Nat)
    (h : k ∉ m.map Prod.fst) : dictInsert m k v = m ++ [(k, v)] := by
  induction m with
  | nil => rfl
  | cons p rest ih =>
    obtain ⟨k1, v1⟩ := p
    rw [List.map_cons, List.mem_cons, not_or] at h
    have hk : k1 ≠ k := fun he => h.1 he.symm
    simp [dictInsert, hk, ih h.2]

theorem mem_keys_dictInsert (m : HandlerMap) (k : Str) (v : Nat) (x : Str) :
    x ∈ (dictInsert m k v).map Prod.fst ↔ x ∈ m.map Prod.fst ∨ x = k := by
  induction m with
  | nil => simp [dictInsert]
  | cons p rest ih =>
    obtain ⟨k1, v1⟩ := p
    by_cases hk : k1 = k
    · subst hk
      simp only [dictInsert, if_pos rfl, if_true, eq_self_iff_true,
        List.map_cons, List.mem_cons]
      tauto
    · simp only [dictInsert, if_neg hk, List.map_cons, List.mem_cons, ih]
      tauto

theorem nodup_keys_dictInsert (m : HandlerMap) (k : Str) (v : Nat)
    (hnd : (m.map Prod.fst).Nodup) :
    ((dictInsert m k v).map Prod.fst).Nodup := by
  induction m with
  | nil => simp [dictInsert]
  | cons p rest ih =>
    obtain ⟨k1, v1⟩ := p
    rw [List.map_cons, List.nodup_cons] at hnd
    by_cases hk : k1 = k
    · subst hk
      simp only [dictInsert, if_pos rfl, if_true, eq_self_iff_true,
        List.map_cons, List.nodup_cons]
      exact ⟨hnd.1, hnd.2⟩
    · simp only [dictInsert, if_neg hk, List.map_cons, List.nodup_cons]
      refine ⟨fun hm => ?_, ih hnd.2⟩
      rcases (mem_keys_dictInsert rest k v k1).mp hm with hx | hx
      · exact hnd.1 hx
      · exact hk hx

theorem filter_key_eq_nil (m : HandlerMap) (k : Str)
    (h : k ∉ m.map Prod.fst) :
    m.filter (fun p => p.1 == k) = [] := by
  induction m with
  | nil => rfl
  | cons p rest ih =>
    obtain ⟨k1, v1⟩ := p
    rw [List.map_cons, List.mem_cons, not_or] at h
    have hk : k1 ≠ k := fun he => h.1 he.symm
    simpa [List.filter_cons, hk] using ih h.2

theorem filter_key_dictInsert (m : HandlerMap) (k : Str) (v : Nat)
    (hnd : (m.map Prod.fst).Nodup) :
    (dictInsert m k v).filter (fun p => p.1 == k) = [(k, v)] := by
  induction m with
  | nil => simp [dictInsert, List.filter_cons]
  | cons p rest ih =>
    obtain ⟨k1, v1⟩ := p
    rw [List.map_cons, List.nodup_cons] at hnd
    by_cases hk : k1 = k
    · subst hk
      simp [dictInsert, List.filter_cons, filter_key_eq_nil rest k1 hnd.1]
    · simpa [dictInsert, hk, List.filter_cons] using ih hnd.2

theorem subscribeList_split (regs : List (Str × Nat)) : ∀ st : SubState,
    (regs.map Prod.fst).Nodup →
    (∀ r ∈ regs, r.1 ∉ st.handlers.map Prod.fst) →
    (∀ r ∈ regs, r.1 ∉ st.wildcard_handlers.map Prod.fst) →
    subscribeList st regs =
      { handlers := st.handlers ++ regs.filter (fun r => !isWildcardTopic r.1)
      , wildcard_handlers :=
          st.wildcard_handlers ++ regs.filter (fun r => isWildcardTopic r.1) } := by
  induction regs with
  | nil =>
    intro st _ _ _
    simp [subscribeList]
  | cons r rs ih =>
    intro st hnd h1 h2
    obtain ⟨t, hdl⟩ := r
    rw [List.map_cons, List.nodup_cons] at hnd
    have ht1 : t ∉ st.handlers.map Prod.fst :=
      h1 (t, hdl) (List.mem_cons_self _ _)
    have ht2 : t ∉ st.wildcard_handlers.map Prod.fst :=
      h2 (t, hdl) (List.mem_cons_self _ _)
    by_cases hw : isWildcardTopic t
    · have hsub : st.subscribe t hdl =
          { handlers := st.handlers
          , wildcard_handlers := st.wildcard_handlers ++ [(t, hdl)] } := by
        simp [SubState.subscribe, hw, dictInsert_of_not_mem _ _ _ ht2]
      have h1' : ∀ r' ∈ rs, r'.1 ∉ st.handlers.map Prod.fst :=
        fun r' hr' => h1 r' (List.mem_cons_of_mem _ hr')
      have h2' : ∀ r' ∈ rs,
          r'.1 ∉ (st.wildcard_handlers ++ [(t, hdl)]).map Prod.fst := by
        intro r' hr'
        rw [List.map_append, List.mem_append]
        rintro (hx | hx)
        · exact h2 r' (List.mem_cons_of_mem _ hr') hx
        · have : r'.1 = t := by simpa using hx
          exact hnd.1 (this ▸ List.mem_map.mpr ⟨r', hr', rfl⟩)
      simp only [subscribeList]
      rw [hsub, ih { handlers := st.handlers
                   , wildcard_handlers := st.wildcard_handlers ++ [(t, hdl)] }
            hnd.2 h1' h2']
      simp [List.filter_cons, hw, List.append_assoc]
    · have hsub : st.subscribe t hdl =
          { handlers := st.handlers ++ [(t, hdl)]
          , wildcard_handlers := st.wildcard_handlers } := by
        simp [SubState.subscribe, hw, dictInsert_of_not_mem _ _ _ ht1]
      have h2' : ∀ r' ∈ rs, r'.1 ∉ st.wildcard_handlers.map Prod.fst :=
        fun r' hr' => h2 r' (List.mem_cons_of_mem _ hr')
      have h1' : ∀ r' ∈ rs,
          r'.1 ∉ (st.handlers ++ [(t, hdl)]).map Prod.fst := by
        intro r' hr'
        rw [List.map_append, List.mem_append]
        rintro (hx | hx)
        · exact h1 r' (List.mem_cons_of_mem _ hr') hx
        · have : r'.1 = t := by simpa using hx
          exact hnd.1 (this ▸ List.mem_map.mpr ⟨r', hr', rfl⟩)
      simp only [subscribeList]
      rw [hsub, ih { handlers := st.handlers ++ [(t, hdl)]
                   , wildcard_handlers := st.wildcard_handlers }
            hnd.2 h1' h2']
      simp [List.filter_cons, hw, List.append_assoc]

theorem SubWF_subscribe (st : SubState) (T : Str) (h : Nat) (hwf : SubWF st) :
    SubWF (st.subscribe T h) := by
  obtain ⟨w1, w2, w3, w4⟩ := hwf
  by_cases hw : isWildcardTopic T
  · unfold SubState.subscribe
    rw [if_pos hw]
    refine ⟨w1, nodup_keys_dictInsert _ _ _ w2, w3, ?_⟩
    intro k hk
    rcases (mem_keys_dictInsert _ _ _ k).mp hk with hx | hx
    · exact w4 k hx
    · exact hx ▸ hw
  · have hwb : isWildcardTopic T = false := by simpa using hw
    unfold SubState.subscribe
    rw [if_neg hw]
    refine ⟨nodup_keys_dictInsert _ _ _ w1, w2, ?_, w4⟩
    intro k hk
    rcases (mem_keys_dictInsert _ _ _ k).mp hk with hx | hx
    · exact w3 k hx
    · exact hx ▸ hwb

/-- C10: on a well-formed transport session, subscribing a handler `h1` and
then a handler `h2` under the same topic string leaves exactly one handler
stored for that topic across the exact and wildcard maps, namely `h2` (the
later registration silently replaces the earlier one, Python dict
assignment); and every `subscribe` preserves the at-most-one-handler-per-key
well-formedness of the two maps. -/
theorem C10_resubscribe (st : SubState) (T : Str) (h1 h2 : Nat)
    (hwf : SubWF st) :
    SubWF ((st.subscribe T h1).subscribe T h2) ∧
    handlersFor ((st.subscribe T h1).subscribe T h2) T = [h2] := by
  refine ⟨SubWF_subscribe _ _ _ (SubWF_subscribe _ _ _ hwf), ?_⟩
  obtain ⟨w1, w2, w3, w4⟩ := hwf
  by_cases hw : isWildcardTopic T
  · have hT1 : T ∉ st.handlers.map Prod.fst := by
      intro hmem
      have hx := w3 T hmem
      simp [hx] at hw
    have e1 : ((st.subscribe T h1).subscribe T h2).handlers = st.handlers := by
      simp [SubState.subscribe, hw]
    have e2 : ((st.subscribe T h1).subscribe T h2).wildcard_handlers =
        dictInsert (dictInsert st.wildcard_handlers T h1) T h2 := by
      simp [SubState.subscribe, hw]
    unfold handlersFor
    rw [e1, e2, filter_key_eq_nil _ _ hT1,
      filter_key_dictInsert _ _ _ (nodup_keys_dictInsert _ _ _ w2)]
    simp
  · have hwb : isWildcardTopic T = false := by simpa using hw
    have hT2 : T ∉ st.wildcard_handlers.map Prod.fst := by
      intro hmem
      have hx := w4 T hmem
      simp [hx] at hwb
    have e1 : ((st.subscribe T h1).subscribe T h2).handlers =
        dictInsert (dictInsert st.handlers T h1) T h2 := by
      simp [SubState.subscribe, hwb]
    have e2 : ((st.subscribe T h1).subscribe T h2).wildcard_handlers =
        st.wildcard_handlers := by
      simp [SubState.subscribe, hwb]
    unfold handlersFor
    rw [e1, e2, filter_key_eq_nil _ _ hT2,
      filter_key_dictInsert _ _ _ (nodup_keys_dictInsert _ _ _ w1)]
    simp

/-- C10 (witness): double registration under the AGV order topic on a fresh
session stores exactly the second handler. -/
theorem C10_resubscribe_witness :
    SubWF SubState.empty ∧
    (SubWF ((SubState.empty.subscribe "uagv/v2/RobotCo/A1/order".toList
        1).subscribe "uagv/v2/RobotCo/A1/order".toList 2) ∧
     handlersFor ((SubState.empty.subscribe "uagv/v2/RobotCo/A1/order".toList
        1).subscribe "uagv/v2/RobotCo/A1/order".toList 2)
       "uagv/v2/RobotCo/A1/order".toList = [2]) := by
  have hwf : SubWF SubState.empty := by
    refine ⟨?_, ?_, ?_, ?_⟩ <;> simp [SubState.empty]
  exact ⟨hwf, C10_resubscribe SubState.empty
    "uagv/v2/RobotCo/A1/order".toList 1 2 hwf⟩

/-- C2: on the session built from any registration sequence with distinct
topic strings, `_route` invokes exactly one handler per message (its result
is a single optional handler, mirroring the early returns): when the topic
is registered exactly (non-wildcard), the exact handler wins, whatever
wildcard patterns also match; when no exact registration exists for the
topic, the invoked handler is the one of the first matching wildcard
pattern in registration order. -/
theorem C2_dispatch (regs : List (Str × Nat)) (topic : Str)
    (hnd : (regs.map Prod.fst).Nodup) :
    (∀ h, (topic, h) ∈ regs → isWildcardTopic topic = false →
       (subscribeAll regs).route topic = some h) ∧
    (topic ∉ (regs.filter (fun r => !isWildcardTopic r.1)).map Prod.fst →
       (subscribeAll regs).route topic =
         ((regs.filter (fun r => isWildcardTopic r.1)).find?
            (fun r => wcMatch r.1 topic)).map Prod.snd) := by
  have hsplit : subscribeAll regs =
      { handlers := regs.filter (fun r => !isWildcardTopic r.1)
      , wildcard_handlers := regs.filter (fun r => isWildcardTopic r.1) } := by
    have hs := subscribeList_split regs SubState.empty hnd
      (by intro r _; simp [SubState.empty]) (by intro r _; simp [SubState.empty])
    simpa [subscribeAll, SubState.empty] using hs
  constructor
  · intro h hmem hwc
    have hmemf : (topic, h) ∈ regs.filter (fun r => !isWildcardTopic r.1) :=
      List.mem_filter.mpr ⟨hmem, by simp [hwc]⟩
    have hndf :
        ((regs.filter (fun r => !isWildcardTopic r.1)).map Prod.fst).Nodup :=
      hnd.sublist (List.Sublist.map _ (List.filter_sublist _))
    have hlook := dictLookup_eq_of_mem _ _ _ hmemf hndf
    rw [hsplit]
    simp [SubState.route, hlook]
  · intro hni
    have hlook :=
      dictLookup_eq_none (regs.filter (fun r => !isWildcardTopic r.1)) topic hni
    rw [hsplit]
    simp [SubState.route, hlook]

/-- C2 (witness): with an exact registration for the AGV order topic and a
wildcard registration that also matches it, routing picks the exact
handler. -/
theorem C2_dispatch_witness :
    (([("uagv/v2/RobotCo/A1/order".toList, 1),
       ("uagv/v2/+/+/order".toList, 2)].map Prod.fst).Nodup) ∧
    (("uagv/v2/RobotCo/A1/order".toList, 1) ∈
      [("uagv/v2/RobotCo/A1/order".toList, 1),
       ("uagv/v2/+/+/order".toList, 2)]) ∧
    (isWildcardTopic "uagv/v2/RobotCo/A1/order".toList = false) ∧
    (wcMatch "uagv/v2/+/+/order".toList "uagv/v2/RobotCo/A1/order".toList
      = true) ∧
    (subscribeAll [("uagv/v2/RobotCo/A1/order".toList, 1),
       ("uagv/v2/+/+/order".toList, 2)]).route
      "uagv/v2/RobotCo/A1/order".toList = some 1 :=
  ⟨by decide, by decide, by decide, by decide,
   (C2_dispatch _ _ (by decide)).1 1 (by decide) (by decide)⟩

/-- C3 (counterexample): the dispatch loop itself catches only the
empty-queue poll timeout. With two queued messages whose topics have direct
(unwrapped) subscriptions, a handler that raises on the first message
terminates the processor coroutine: nothing is logged-and-continued, and
the second queued message is never dispatched — so the claim that the
Transport Session's dispatch loop catches handler exceptions and keeps
going is false as stated. -/
theorem C3_counterexample :
    messageProcessor
      (subscribeAll [("a".toList, 1), ("b".toList, 2)])
      (fun h => if h = 1 then HandlerBehavior.raises else HandlerBehavior.ok)
      [("a".toList, "x".toList), ("b".toList, "y".toList)] =
      ([], some ("a".toList, "x".toList)) := by
  decide

/-- C3 (amended): per-message exception isolation is provided not by the
Transport Session's dispatch loop but by the `message_wrapper` the Client
Core installs around every handler it registers: the wrapper's
`try/except` swallows any exception, so when every subscribed handler is
wrapped, the dispatch loop processes the whole queue and no handler
exception terminates it. A handler subscribed directly on the Transport
Session without the wrapper can still kill the loop (see the
counterexample). -/
theorem C3_wrapped_isolation (st : SubState) (raw : Nat → HandlerBehavior)
    (queue : List (Str × Str)) :
    messageProcessor st (fun h => message_wrapper (raw h)) queue =
      (queue, none) := by
  induction queue with
  | nil => rfl
  | cons m rest ih =>
    obtain ⟨t, p⟩ := m
    simp only [message_wrapper] at ih ⊢
    cases hr : st.route t <;>
      simp [messageProcessor, hr, ih]

/-- C4 (counterexample): with the session Disconnected, `publish` raises
`RuntimeError("Not connected")` — the failure reaches the caller as an
exception, not as a returned `False`, contrary to the claim. The repo's own
unit test (`test_publish_not_connected`) expects exactly this raise. -/
theorem C4_counterexample :
    MQTTAbstraction.publish ConnectionState.DISCONNECTED true =
      PyResult.exc "Not connected" := by
  decide

/-- C4 (amended): for every state of the Transport Session other than
Connected, `publish(topic, payload)` fails immediately by raising
`RuntimeError("Not connected")` (an exception propagated to the caller),
regardless of how the broker acknowledgment would have gone; it does not
return a success/failure value. -/
theorem C4_publish_raises (s : ConnectionState) (ack : Bool)
    (hs : s ≠ ConnectionState.CONNECTED) :
    MQTTAbstraction.publish s ack = PyResult.exc "Not connected" := by
  simp [MQTTAbstraction.publish, hs]

/-- C4 (witness): the amended statement at the Disconnected state. -/
theorem C4_publish_raises_witness :
    (ConnectionState.DISCONNECTED ≠ ConnectionState.CONNECTED) ∧
    MQTTAbstraction.publish ConnectionState.DISCONNECTED true =
      PyResult.exc "Not connected" :=
  ⟨by decide, C4_publish_raises _ true (by decide)⟩

/-- C5 (code evaluation at the failing input): a `connect` call from
Disconnected whose transport connect raises — the scenario of the repo's
own unit test `test_connect_failure` — returns `False` but leaves the
state `CONNECTING`, not `DISCONNECTED` as both the claim and that test
require (nothing in the `except` branch resets `_state`). The same holds
when the handshake wait times out, where additionally the paho network
loop is left started. The dispatch loop (`_message_processor`) is indeed
not started on either failure path. -/
theorem C5_code_eval :
    MQTTAbstraction.connect ConnectionState.DISCONNECTED
        ConnectPhase.transportRaises =
      { ret := PyResult.ok false, finalState := ConnectionState.CONNECTING
      , processorStarted := false, pahoLoopStarted := false } ∧
    MQTTAbstraction.connect ConnectionState.DISCONNECTED
        ConnectPhase.waitTimesOut =
      { ret := PyResult.ok false, finalState := ConnectionState.CONNECTING
      , processorStarted := false, pahoLoopStarted := true } ∧
    ConnectionState.CONNECTING ≠ ConnectionState.DISCONNECTED := by
  refine ⟨rfl, rfl, by decide⟩

/-- C6 (code evaluation at the failing input): for an AGV client created
with manufacturer RobotCo and serial A1 (broker URL "broker"), `connect()`
publishes nothing at all: the post-connect hook runs before
`self._connected = True`, so the factsheet send inside it aborts with
`VDA5050Error("Not connected to VDA5050 system")`, which is caught and
logged; `disconnect()` publishes nothing either (no pre-disconnect hook
override). In particular no publish — retained or otherwise — occurs on
uagv/v2/RobotCo/A1/connection, with ONLINE, OFFLINE or any other payload,
contrary to the claimed retained announcements. And even an explicit
factsheet send while connected goes out with the retain flag clear, on
uagv/v2/broker/RobotCo/factsheet (the swapped constructor arguments put
the broker URL in the manufacturer segment), so no retained publish is
possible through this client at all. -/
theorem C6_code_eval :
    AGVClient.connectPublishes
        (AGVClient.topicManagerOf "broker".toList "RobotCo".toList
          "A1".toList) true = [] ∧
    AGVClient.connectPublishes
        (AGVClient.topicManagerOf "broker".toList "RobotCo".toList
          "A1".toList) false = [] ∧
    AGVClient.disconnectPublishes
        (AGVClient.topicManagerOf "broker".toList "RobotCo".toList
          "A1".toList) = [] ∧
    VDA5050BaseClient.publish_message
        (AGVClient.topicManagerOf "broker".toList "RobotCo".toList
          "A1".toList) false "factsheet".toList MsgPayload.factsheet =
      PyResult.exc "Not connected to VDA5050 system" ∧
    AGVClient.send_factsheet
        (AGVClient.topicManagerOf "broker".toList "RobotCo".toList
          "A1".toList) true =
      ([{ topic := "uagv/v2/broker/RobotCo/factsheet".toList
        , payload := MsgPayload.factsheet, retain := false }], true) := by
  refine ⟨by decide, rfl, rfl, by decide, by decide⟩

/-- C8 (counterexample): an explicit `disconnect()` only sets the state to
`DISCONNECTED`, and the reconnect loop's guard `state != CONNECTED` still
evaluates true there, so the loop does not stop retrying when
`disconnect()` is called — the "until ... disconnect() is called
explicitly" part of the claim is false on the code. -/
theorem C8_counterexample :
    MQTTAbstraction.disconnectState ConnectionState.CONNECTED =
      ConnectionState.DISCONNECTED ∧
    reconnectGuard ConnectionState.DISCONNECTED = true := by
  decide

theorem backoffDelay_le (k : Nat) : backoffDelay k ≤ 60 := by
  cases k with
  | zero => simp [backoffDelay]
  | succ k =>
    show min (backoffDelay k * 2) 60 ≤ 60
    exact Nat.min_le_right _ _

theorem reconnectGo_replicate (n : Nat) : ∀ j : Nat,
    reconnectGo (List.replicate n false ++ [true]) (backoffDelay j) =
      ((List.range (n + 1)).map (fun k => backoffDelay (j + k)), true) := by
  induction n with
  | zero =>
    intro j
    have h1 : List.range 1 = [0] := rfl
    simp [reconnectGo, h1]
  | succ n ih =>
    intro j
    have hstep : reconnectGo (List.replicate (n + 1) false ++ [true])
        (backoffDelay j) =
        (backoffDelay j ::
          (reconnectGo (List.replicate n false ++ [true])
            (backoffDelay (j + 1))).1,
         (reconnectGo (List.replicate n false ++ [true])
            (backoffDelay (j + 1))).2) := rfl
    rw [hstep, ih (j + 1)]
    have harg : ∀ k, j + 1 + k = j + (k + 1) := by
      intro k
      omega
    simp [List.range_succ_eq_map, List.map_map, Function.comp, harg]

/-- C8 (amended): after an unexpected disconnect, the background reconnect
loop waits 1 time-unit before the first retry, doubles the wait after each
failed attempt with the wait capped at 60 time-units, and keeps retrying
until a reconnection attempt succeeds (the loop guard is `state` not equal
to Connected; an explicit `disconnect()` leaves that guard true and does
not terminate the loop — see the counterexample). After 3 consecutive
failures the waits so far are 1, 2, 4; after n failures and one success
the waits are the successive backoff delays and the loop returns. -/
theorem C8_backoff :
    reconnectRun [false, false, false] = ([1, 2, 4], false) ∧
    (∀ k, backoffDelay (k + 1) = min (backoffDelay k * 2) 60) ∧
    (∀ k, backoffDelay k ≤ 60) ∧
    (∀ n, reconnectRun (List.replicate n false ++ [true]) =
       ((List.range (n + 1)).map backoffDelay, true)) := by
  refine ⟨by decide, fun k => rfl, backoffDelay_le, fun n => ?_⟩
  have h := reconnectGo_replicate n 0
  simpa [reconnectRun] using h

/-- C9 (counterexample): on a connected client whose pre-disconnect hook
raises, `disconnect()` catches the exception in the single `try` block
wrapping the whole body, so the transport teardown is skipped and
`_connected` stays `True` — the transport is not torn down and the client
is not marked not-connected, contrary to the claim. -/
theorem C9_counterexample :
    baseDisconnect true { connected := true, transportDown := false } =
      { connected := true, transportDown := false } := by
  decide

/-- C9 (amended): on a connected Client Core, when the role-specific
pre-disconnect hook raises, `disconnect()` returns normally (the exception
is caught and logged) but performs no transport teardown and leaves the
client marked connected; only when the hook returns normally are the
transport torn down and the client marked not-connected. -/
theorem C9_disconnect_hook (s : ClientState) (hc : s.connected = true) :
    baseDisconnect true s = s ∧
    baseDisconnect false s = { connected := false, transportDown := true } := by
  constructor
  · simp [baseDisconnect, hc, execBody, execStep]
  · simp [baseDisconnect, hc, execBody, execStep]

/-- C9 (witness): the amended statement at the concrete connected state. -/
theorem C9_disconnect_hook_witness :
    (({ connected := true, transportDown := false } : ClientState).connected
      = true) ∧
    (baseDisconnect true { connected := true, transportDown := false } =
       { connected := true, transportDown := false } ∧
     baseDisconnect false { connected := true, transportDown := false } =
       { connected := false, transportDown := true }) :=
  ⟨rfl, C9_disconnect_hook _ rfl⟩
